import Mathlib

/-!
Verification of the neurgo neuron core (`neuron.go`) against its
natural-language specification.

Shallow embedding conventions:
* Go `float64` values (biases, weights, payloads, layer indices) are embedded
  as `ℚ`; every concrete value appearing in the claims is exactly
  representable and the claims concern structure, not rounding.
* Channels, the wait group and the `Cortex` back-pointer matter to the claims
  only through their nil-ness, so they are embedded as presence flags
  (`Bool`: `true` = non-nil).
* Fallible / panicking code paths return `Option` (`none` = panic).
-/

namespace Neurgo

/-- Go `NodeId` (`nodeid.go`): immutable node descriptor. -/
structure NodeId where
  UUID : String
  NodeType : String
  LayerIndex : ℚ
deriving DecidableEq, Repr

/-- Go `InboundConnection`: sender identity plus the weight vector held at the
receiving end (fields as used throughout `neuron.go` and the tests). -/
structure InboundConnection where
  NodeId : NodeId
  Weights : List ℚ
deriving DecidableEq, Repr

/-- Go `OutboundConnection`: target identity plus its data channel, embedded
as a presence flag (`DataChan = false` models a nil channel). -/
structure OutboundConnection where
  NodeId : NodeId
  DataChan : Bool
deriving DecidableEq, Repr

/-- Go `DataMessage`: sender identity and payload vector. -/
structure DataMessage where
  SenderId : NodeId
  Inputs : List ℚ
deriving DecidableEq, Repr

/-- Modelled from the spec: the repository's `EncodableActivation` type is not
under `src/`; per the spec it is the neuron's "activation reference", a named
activation function (the name is what its JSON form carries). -/
structure EncodableActivation where
  Name : String
  ActivationFunction : ℚ → ℚ

/-- Modelled from the spec: the repository's `weightedInput` type is not under
`src/` (its literals in the tests show the `weights`/`inputs` fields; the spec
describes the pending-input map as keyed by sender identity, one entry per
inbound sender). `inputs = none` models the Go nil slice: no payload received
yet. -/
structure weightedInput where
  senderNodeUUID : String
  weights : List ℚ
  inputs : Option (List ℚ)
deriving DecidableEq, Repr

/-- Go `Neuron` (`neuron.go` lines 14-25). Pointer/slice/channel fields that
the claims inspect only for nil-ness are embedded as `Option`/`Bool`. -/
structure Neuron where
  NodeId : Option NodeId
  Bias : ℚ
  Inbound : Option (List InboundConnection)
  Outbound : Option (List OutboundConnection)
  Closing : Bool
  DataChan : Bool
  ActivationFunction : Option EncodableActivation
  wg : Bool
  Cortex : Bool
  weightedInputs : List weightedInput

/-- Modelled from the spec: `createEmptyWeightedInputs(inbound)` is not under
`src/`; per the spec the pending-input state is "rebuilt to empty" from the
inbound connection list — one entry per inbound sender, weights from the
connection, no payload yet. -/
def createEmptyWeightedInputs (inbound : List InboundConnection) :
    List weightedInput :=
  inbound.map (fun c => ⟨c.NodeId.UUID, c.Weights, none⟩)

/-- Modelled from the spec: `recordInput(weightedInputs, dataMessage)` is not
under `src/`; per the spec each arrival is attributed to its sending
connection and "overwrites any prior pending entry for that sender"
(last-value-wins). -/
def recordInput (weightedInputs : List weightedInput)
    (dataMessage : DataMessage) : List weightedInput :=
  weightedInputs.map (fun w =>
    if w.senderNodeUUID == dataMessage.SenderId.UUID then
      { w with inputs := some dataMessage.Inputs }
    else w)

/-- Modelled from the spec: the free function `receiveBarrierSatisfied` is not
under `src/`; per the spec the barrier holds exactly when "the pending-input
map contains an entry for every sender", i.e. every pending entry has
received a payload. -/
def receiveBarrierSatisfied (weightedInputs : List weightedInput) : Bool :=
  weightedInputs.all (fun w => w.inputs.isSome)

/-- `neuron.receiveBarrierSatisfied` (neuron.go:431-433): evaluates the
barrier on the neuron's *cached* `weightedInputs` field. -/
def Neuron.receiveBarrierSatisfied (neuron : Neuron) : Bool :=
  Neurgo.receiveBarrierSatisfied neuron.weightedInputs

/-- `neuron.receiveDataMessage` (neuron.go:435-438). -/
def Neuron.receiveDataMessage (neuron : Neuron) (dataMessage : DataMessage) :
    Neuron :=
  { neuron with weightedInputs := recordInput neuron.weightedInputs dataMessage }

/-- `neuron.createEmptyWeightedInputs` (neuron.go:457-459): resets the
pending-input state from the inbound connection list (`Run` start and after
each firing; a nil `Inbound` would already have aborted in `checkRunnable`). -/
def Neuron.createEmptyWeightedInputs (neuron : Neuron) : Neuron :=
  { neuron with
    weightedInputs := Neurgo.createEmptyWeightedInputs (neuron.Inbound.getD []) }

/-- Model of the external library call `vector.DotProduct`
(github.com/proxypoke/vector, out of the repository's scope per the spec):
the mathematical dot product, failing (`none`) exactly when the dimensions
differ. -/
def dotProduct (xs ys : List ℚ) : Option ℚ :=
  if xs.length = ys.length then some (List.zipWith (· * ·) xs ys).sum
  else none

/-- `neuron.weightedInputDotProductSum` (neuron.go:383-404): sums the
per-edge `(inputs, weights)` dot products; a dot-product error (dimension
mismatch) panics, modelled by `none` (Go's nil `inputs` slice becomes the
empty vector, hence `Option.getD []`). -/
def weightedInputDotProductSum (weightedInputs : List weightedInput) :
    Option ℚ :=
  weightedInputs.foldl
    (fun acc w =>
      match acc, dotProduct (w.inputs.getD []) w.weights with
      | some s, some d => some (s + d)
      | _, _ => none)
    (some 0)

/-- `neuron.computeScalarOutput` (neuron.go:368-379): activation applied to
(dot-product summation + bias). A nil activation reference would be a nil
dereference, modelled by `none` (unreachable after `checkRunnable`). -/
def Neuron.computeScalarOutput (neuron : Neuron)
    (weightedInputs : List weightedInput) : Option ℚ :=
  match neuron.ActivationFunction with
  | none => none
  | some a =>
    (weightedInputDotProductSum weightedInputs).map
      (fun s => a.ActivationFunction (s + neuron.Bias))

/-- `neuron.IsConnectionRecurrent` (neuron.go:152-157): an outbound
connection is recurrent iff its target's layer index is ≤ the neuron's own
(`Run` guarantees `NodeId` is set before this is reached). -/
def Neuron.IsConnectionRecurrent (neuron : Neuron)
    (connection : OutboundConnection) : Bool :=
  match neuron.NodeId with
  | some nid => connection.NodeId.LayerIndex ≤ nid.LayerIndex
  | none => false

/-- `neuron.RecurrentOutboundConnections` (neuron.go:127-135). -/
def Neuron.RecurrentOutboundConnections (neuron : Neuron) :
    List OutboundConnection :=
  (neuron.Outbound.getD []).filter neuron.IsConnectionRecurrent

/-- `neuron.validateOutbound` (neuron.go:358-366): returns an error
(`true` here) iff some outbound connection has a nil data channel; a nil
`Outbound` slice iterates zero times, hence no error. -/
def Neuron.validateOutboundErr (neuron : Neuron) : Bool :=
  (neuron.Outbound.getD []).any (fun c => !c.DataChan)

/-- `neuron.checkRunnable` (neuron.go:324-356): `true` iff `Run`'s
configuration validation panics — nil `NodeId`, nil `Inbound`, nil `Closing`,
nil `DataChan`, nil `ActivationFunction`, or an invalid outbound connection.
Note: a nil `Outbound` list itself is never checked. -/
def Neuron.checkRunnablePanics (neuron : Neuron) : Bool :=
  neuron.NodeId.isNone || neuron.Inbound.isNone || !neuron.Closing ||
    !neuron.DataChan || neuron.ActivationFunction.isNone ||
    neuron.validateOutboundErr

/-! ### Priming (neuron.go:265-322)

`primeRecurrentOutbound` races its non-self channel send against a one-second
timeout and against a shutdown request on `Closing`; which arm wins is the
environment's choice, embedded as an oracle. The observable actions are
recorded as events. -/

/-- Outcome the environment chooses for a non-self priming send
(neuron.go:290-297): the send completes, the timeout fires (panic), or a
shutdown request wins the race and is acknowledged. -/
inductive PrimeOutcome where
  | sent
  | timedOut
  | ackClosed
deriving DecidableEq, Repr

/-- Observable actions of the priming phase. -/
inductive PrimeEvent where
  /-- a zero-valued message sent on a non-self outbound channel -/
  | send (target : NodeId) (payload : List ℚ)
  /-- a self-loop delivery routed directly through the receive path -/
  | selfReceive (payload : List ℚ)
  /-- the `logg.LogPanic` at neuron.go:278-279 (barrier already satisfied) -/
  | panicBarrier
  /-- the `log.Panicf` timeout at neuron.go:292-293 -/
  | panicTimeout (target : NodeId)
  /-- `responseChan <- true`: a shutdown request acknowledged mid-priming -/
  | ackShutdown
deriving DecidableEq, Repr

/-- Result of the priming loop: the event trace, the pending-input state it
leaves behind, and the `closed` value `primeAllRecurrentOutbound` returns
(`none` = the loop panicked and never returns). -/
structure PrimeResult where
  events : List PrimeEvent
  weightedInputs : List weightedInput
  closedReturn : Option Bool
deriving Repr

/-- The loop body of `primeAllRecurrentOutbound` (neuron.go:312-322) over the
already-filtered recurrent connections, with `primeRecurrentOutbound`
(neuron.go:265-304) inlined per connection.

Faithful to the source, including its shadowing slip: at neuron.go:316 the
loop writes `closed := neuron.primeRecurrentOutbound(...)`, declaring a NEW
local `closed` that shadows the named return value, so `if closed { break }`
stops the loop but the function still returns the outer `closed`, which is
never assigned after its initialisation to `false` — hence every non-panic
exit returns `false`, even one that just acknowledged a shutdown request. -/
def primeLoop (nid : NodeId) (oracle : OutboundConnection → PrimeOutcome) :
    List OutboundConnection → List weightedInput → List PrimeEvent →
    PrimeResult
  | [], ws, evs => ⟨evs, ws, some false⟩
  | c :: rest, ws, evs =>
    if c.NodeId.UUID == nid.UUID then
      -- self-loop: short-circuit through the receive path (neuron.go:273-280)
      let ws' := recordInput ws ⟨nid, [0]⟩
      if receiveBarrierSatisfied ws' then
        ⟨evs ++ [.selfReceive [0], .panicBarrier], ws', none⟩
      else
        primeLoop nid oracle rest ws' (evs ++ [.selfReceive [0]])
    else
      match oracle c with
      | .sent => primeLoop nid oracle rest ws (evs ++ [.send c.NodeId [0]])
      | .timedOut => ⟨evs ++ [.panicTimeout c.NodeId], ws, none⟩
      | .ackClosed =>
        -- inner `closed := true`, `break` — but the returned (outer) closed
        -- is still false (the neuron.go:316 shadowing)
        ⟨evs ++ [.ackShutdown], ws, some false⟩

/-- `neuron.primeAllRecurrentOutbound` (neuron.go:306-322) as run from `Run`
(neuron.go:49-51): the pending-input state has just been rebuilt from the
inbound list, then every recurrent outbound connection is primed in order. -/
def Neuron.primeAllRecurrentOutbound (neuron : Neuron) (nid : Neurgo.NodeId)
    (oracle : OutboundConnection → PrimeOutcome) : PrimeResult :=
  primeLoop nid oracle neuron.RecurrentOutboundConnections
    (Neurgo.createEmptyWeightedInputs (neuron.Inbound.getD [])) []

/-- `Run` (neuron.go:42-57) enters its receive loop iff priming neither
panicked nor (per the intended semantics) acknowledged a shutdown: in the
source, `closed = neuron.primeAllRecurrentOutbound()` followed by
`if closed \x7b ... return \x7d`. -/
def Neuron.runEntersReceiveLoop (neuron : Neuron) (nid : Neurgo.NodeId)
    (oracle : OutboundConnection → PrimeOutcome) : Bool :=
  match (neuron.primeAllRecurrentOutbound nid oracle).closedReturn with
  | some c => !c
  | none => false

/-! ### JSON copy (neuron.go:95-114, 180-195) -/

/-- The serialised form of an `OutboundConnection`. Go's `encoding/json`
cannot encode a channel value, so only the target identity survives
serialisation; the repository's `initOutboundConnections`
(neuron.go:414-423) exists precisely to re-attach `DataChan`s that are nil
after decoding. -/
structure OutboundConnectionJSON where
  NodeId : NodeId

/-- Modelled from the spec: serialising an outbound connection keeps the
target identity and drops the channel (the connection codec is outside
`src/`; a channel is not JSON-encodable). -/
def OutboundConnection.MarshalJSON (connection : OutboundConnection) :
    OutboundConnectionJSON :=
  ⟨connection.NodeId⟩

/-- Modelled from the spec: decoding an outbound connection restores the
target identity; its `DataChan` is the nil channel (`false`), to be
re-attached later by `initOutboundConnections` (neuron.go:414-423). -/
def unmarshalOutboundConnection (j : OutboundConnectionJSON) :
    OutboundConnection :=
  ⟨j.NodeId, false⟩

/-- The anonymous five-field struct serialised by `Neuron.MarshalJSON`
(neuron.go:180-195), with every outbound connection reduced to its
channel-free serialised form. -/
structure NeuronJSON where
  NodeId : Option NodeId
  Bias : ℚ
  Inbound : Option (List InboundConnection)
  Outbound : Option (List OutboundConnectionJSON)
  ActivationFunction : Option EncodableActivation

/-- `neuron.MarshalJSON` (neuron.go:180-195): projects exactly the five
serialised fields; the outbound connections' channels cannot be JSON-encoded
and are dropped by the connection codec. -/
def Neuron.MarshalJSON (neuron : Neuron) : NeuronJSON :=
  ⟨neuron.NodeId, neuron.Bias, neuron.Inbound,
    neuron.Outbound.map (fun l => l.map OutboundConnection.MarshalJSON),
    neuron.ActivationFunction⟩

/-- Modelled from the spec: `json.Unmarshal` of the five-field document into
a fresh zero-valued `Neuron` (the Go stdlib decoder and
`EncodableActivation`'s name-keyed decoding are outside `src/`). The
serialised fields are restored — decoded outbound connections carry nil
channels — and every other field keeps the zero value of a fresh neuron:
nil channels, nil wait group, nil Cortex, nil pending-input state. -/
def unmarshalNeuron (j : NeuronJSON) : Neuron :=
  { NodeId := j.NodeId
    Bias := j.Bias
    Inbound := j.Inbound
    Outbound := j.Outbound.map (fun l => l.map unmarshalOutboundConnection)
    Closing := false
    DataChan := false
    ActivationFunction := j.ActivationFunction
    wg := false
    Cortex := false
    weightedInputs := [] }

/-- `neuron.Copy` (neuron.go:95-114): marshal to JSON, unmarshal into a fresh
`Neuron`. -/
def Neuron.Copy (neuron : Neuron) : Neuron :=
  unmarshalNeuron neuron.MarshalJSON

/-! ### Topology mutation and the receive loop -/

/-- Modelled from the spec: `Disconnect` (not under `src/`) "removes the
matching records from both endpoints"; this is its effect on the receiving
endpoint's inbound list. -/
def disconnectInbound (inbound : List InboundConnection)
    (senderUUID : String) : List InboundConnection :=
  inbound.filter (fun c => !(c.NodeId.UUID == senderUUID))

/-- One pass of `Run`'s receive loop between two pending-state resets
(neuron.go:63-68): each arrival is recorded, then the barrier is re-checked;
this is the barrier value after the whole batch has been recorded into
pending state freshly rebuilt from `inbound`. -/
def firesAfter (inbound : List InboundConnection)
    (msgs : List DataMessage) : Bool :=
  receiveBarrierSatisfied
    (msgs.foldl recordInput (createEmptyWeightedInputs inbound))

/-- The spec's firing summation, written from the spec's words: "Σ over
inbound edges of dot(payload, weights)" (mathematical dot product over the
full vectors, no truncation or padding). -/
def specDotSum (ws : List weightedInput) : ℚ :=
  (ws.map (fun w => (List.zipWith (· * ·) (w.inputs.getD []) w.weights).sum)).sum

/-- The identity activation used by the tests (`identityActivationFunction`). -/
def identityActivation : EncodableActivation := ⟨"identity", fun x => x⟩

/-- The concrete neuron of the spec's "bias 20, identity activation, one
inbound edge with weights [1,1,1,1,1]" example. -/
def c1Neuron : Neuron :=
  { NodeId := some ⟨"neuron", "neuron", 1⟩
    Bias := 20
    Inbound := some [⟨⟨"injector", "injector", 0⟩, [1, 1, 1, 1, 1]⟩]
    Outbound := some []
    Closing := true
    DataChan := true
    ActivationFunction := some identityActivation
    wg := true
    Cortex := false
    weightedInputs := [] }

/-- The priming environment in which every non-self priming send completes
(no shutdown request, no timeout). -/
def allSent : OutboundConnection → PrimeOutcome := fun _ => PrimeOutcome.sent

/-- The priming environment in which a shutdown request wins every priming
race (the `responseChan := <-neuron.Closing` arm at neuron.go:294-296). -/
def ackOracle : OutboundConnection → PrimeOutcome := fun _ => PrimeOutcome.ackClosed

/-- C3 scenario: inbound connection from sender S1. -/
def c3S1Conn : InboundConnection := ⟨⟨"s1", "sensor", 0⟩, [1]⟩

/-- C3 scenario: inbound connection from sender S2. -/
def c3S2Conn : InboundConnection := ⟨⟨"s2", "sensor", 0⟩, [1]⟩

/-- C3 scenario: the one message S2 delivers. -/
def c3Msg2 : DataMessage := ⟨⟨"s2", "sensor", 0⟩, [5]⟩

/-- C2 scenario: a worker whose pending-input state was rebuilt while
`[c3S1Conn, c3S2Conn]` were connected (Run, neuron.go:49) and whose inbound
list has since shrunk to `[c3S2Conn]` (a concurrent Disconnect of S1). -/
def c2StaleNeuron : Neuron :=
  { NodeId := some ⟨"n2", "neuron", 1⟩
    Bias := 0
    Inbound := some [c3S2Conn]
    Outbound := some []
    Closing := true
    DataChan := true
    ActivationFunction := some identityActivation
    wg := true
    Cortex := false
    weightedInputs := createEmptyWeightedInputs [c3S1Conn, c3S2Conn] }

/-- C4 scenario: the priming neuron's identity, layer 1. -/
def c4Nid : NodeId := ⟨"n", "neuron", 1⟩

/-- C4 scenario: a neuron with one recurrent non-self outbound edge (layer 0),
one self-loop, one non-recurrent outbound edge (layer 2), and one non-self
inbound sender. -/
def c4Neuron : Neuron :=
  { NodeId := some c4Nid
    Bias := 0
    Inbound := some [⟨⟨"inj", "injector", 0⟩, [1]⟩]
    Outbound := some [⟨⟨"a", "neuron", 0⟩, true⟩, ⟨c4Nid, true⟩,
      ⟨⟨"b", "actuator", 2⟩, true⟩]
    Closing := true
    DataChan := true
    ActivationFunction := some identityActivation
    wg := true
    Cortex := false
    weightedInputs := [] }

/-- C5 scenario: the priming neuron's identity. -/
def c5Nid : NodeId := ⟨"n", "neuron", 1⟩

/-- C5 scenario: a recurrent (same-layer) non-self outbound connection. -/
def c5AConn : OutboundConnection := ⟨⟨"a", "neuron", 1⟩, true⟩

/-- C5 scenario: a neuron whose only outbound connection is recurrent and
non-self, so priming performs one raced channel send. -/
def c5Neuron : Neuron :=
  { NodeId := some c5Nid
    Bias := 0
    Inbound := some [⟨⟨"inj", "injector", 0⟩, [1]⟩]
    Outbound := some [c5AConn]
    Closing := true
    DataChan := true
    ActivationFunction := some identityActivation
    wg := true
    Cortex := false
    weightedInputs := [] }

/-- C6 scenario: two inbound senders x and y. -/
def c6Inbound : List InboundConnection :=
  [⟨⟨"x", "sensor", 0⟩, [1]⟩, ⟨⟨"y", "sensor", 0⟩, [1]⟩]

/-- C6 scenario: x's message. -/
def c6MsgX : DataMessage := ⟨⟨"x", "sensor", 0⟩, [3]⟩

/-- C6 scenario: y's message. -/
def c6MsgY : DataMessage := ⟨⟨"y", "sensor", 0⟩, [4]⟩

/-- C10 scenario: the neuron's identity. -/
def c10Nid : NodeId := ⟨"n", "neuron", 1⟩

/-- C10 scenario: the self-loop outbound connection. -/
def c10SelfOut : OutboundConnection := ⟨c10Nid, true⟩

/-- C10 scenario: the self-loop as seen on the inbound side. -/
def c10SelfIn : InboundConnection := ⟨c10Nid, [1]⟩

/-- C10 scenario: a neuron whose only inbound connection is its own
self-loop. -/
def c10OnlySelfNeuron : Neuron :=
  { NodeId := some c10Nid
    Bias := 0
    Inbound := some [c10SelfIn]
    Outbound := some [c10SelfOut]
    Closing := true
    DataChan := true
    ActivationFunction := some identityActivation
    wg := true
    Cortex := false
    weightedInputs := [] }

/-- C10 scenario: the same neuron with one additional non-self inbound
sender. -/
def c10OkNeuron : Neuron :=
  { c10OnlySelfNeuron with
    Inbound := some [⟨⟨"inj", "injector", 0⟩, [1]⟩, c10SelfIn] }

/-- C9 scenario: a neuron with one live (non-nil channel) outbound
connection. -/
def c9Neuron : Neuron :=
  { NodeId := some ⟨"n9", "neuron", 1⟩
    Bias := 5
    Inbound := some [⟨⟨"s", "sensor", 0⟩, [1]⟩]
    Outbound := some [⟨⟨"t", "neuron", 2⟩, true⟩]
    Closing := true
    DataChan := true
    ActivationFunction := some identityActivation
    wg := true
    Cortex := true
    weightedInputs := [] }

/-- A fully configured neuron except for a nil `Outbound` list. -/
def c7Neuron : Neuron :=
  { NodeId := some ⟨"n", "neuron", 1⟩
    Bias := 0
    Inbound := some []
    Outbound := none
    Closing := true
    DataChan := true
    ActivationFunction := some identityActivation
    wg := true
    Cortex := false
    weightedInputs := [] }

/-! ### Helper lemmas about the pending-input state -/

/-- The action of `recordInput` on one pending entry. -/
def recordOne (w : weightedInput) (m : DataMessage) : weightedInput :=
  if w.senderNodeUUID == m.SenderId.UUID then { w with inputs := some m.Inputs }
  else w

lemma recordInput_eq_map (ws : List weightedInput) (m : DataMessage) :
    recordInput ws m = ws.map (recordOne · m) := rfl

lemma foldl_recordInput_eq_map (msgs : List DataMessage)
    (ws : List weightedInput) :
    msgs.foldl recordInput ws = ws.map (fun w => msgs.foldl recordOne w) := by
  induction msgs generalizing ws with
  | nil => simp
  | cons m ms ih =>
    rw [List.foldl_cons, recordInput_eq_map, ih, List.map_map]
    rfl

lemma recordOne_senderNodeUUID (w : weightedInput) (m : DataMessage) :
    (recordOne w m).senderNodeUUID = w.senderNodeUUID := by
  unfold recordOne; split <;> rfl

lemma recordOne_weights (w : weightedInput) (m : DataMessage) :
    (recordOne w m).weights = w.weights := by
  unfold recordOne; split <;> rfl

lemma foldl_recordOne_isSome (msgs : List DataMessage) (w : weightedInput) :
    (msgs.foldl recordOne w).inputs.isSome =
      (w.inputs.isSome ||
        msgs.any (fun m => w.senderNodeUUID == m.SenderId.UUID)) := by
  induction msgs generalizing w with
  | nil => simp
  | cons m ms ih =>
    rw [List.foldl_cons, ih, recordOne_senderNodeUUID]
    by_cases h : w.senderNodeUUID = m.SenderId.UUID
    · simp [recordOne, beq_iff_eq, h]
    · have hb : (w.senderNodeUUID == m.SenderId.UUID) = false :=
        beq_eq_false_iff_ne.mpr h
      simp [recordOne, hb]

/-- Characterisation of the barrier after any batch of arrivals into pending
state freshly rebuilt from the inbound connection list: satisfied iff every
inbound sender has delivered at least one message of the batch. -/
lemma receiveBarrierSatisfied_foldl (inbound : List InboundConnection)
    (msgs : List DataMessage) :
    receiveBarrierSatisfied
        (msgs.foldl recordInput (createEmptyWeightedInputs inbound)) =
      inbound.all
        (fun c => msgs.any (fun m => c.NodeId.UUID == m.SenderId.UUID)) := by
  unfold receiveBarrierSatisfied createEmptyWeightedInputs
  rw [foldl_recordInput_eq_map, List.map_map]
  induction inbound with
  | nil => rfl
  | cons c rest ih =>
    simp only [List.map_cons, List.all_cons, ih, Function.comp_apply]
    rw [foldl_recordOne_isSome]
    rfl

/-! ### Helper lemmas about the dot-product summation -/

lemma weightedInputDotProductSum_none_absorb (ws : List weightedInput) :
    ws.foldl
      (fun acc w =>
        match acc, dotProduct (w.inputs.getD []) w.weights with
        | some s, some d => some (s + d)
        | _, _ => none)
      none = none := by
  induction ws with
  | nil => rfl
  | cons w rest ih =>
    rw [List.foldl_cons]
    have : (match (none : Option ℚ), dotProduct (w.inputs.getD []) w.weights with
        | some s, some d => some (s + d)
        | _, _ => none) = none := by
      rcases dotProduct (w.inputs.getD []) w.weights with _ | d <;> rfl
    rw [this, ih]

lemma weightedInputDotProductSum_go (ws : List weightedInput) (s : ℚ)
    (h : ∀ w ∈ ws, (w.inputs.getD []).length = w.weights.length) :
    ws.foldl
      (fun acc w =>
        match acc, dotProduct (w.inputs.getD []) w.weights with
        | some s, some d => some (s + d)
        | _, _ => none)
      (some s) = some (s + specDotSum ws) := by
  induction ws generalizing s with
  | nil => simp [specDotSum]
  | cons w rest ih =>
    have hw := h w (by simp)
    have hd : dotProduct (w.inputs.getD []) w.weights =
        some (List.zipWith (· * ·) (w.inputs.getD []) w.weights).sum := by
      simp [dotProduct, hw]
    rw [List.foldl_cons, hd]
    rw [ih _ (fun w' hw' => h w' (by simp [hw']))]
    simp [specDotSum]
    ring

lemma weightedInputDotProductSum_eq_some (ws : List weightedInput)
    (h : ∀ w ∈ ws, (w.inputs.getD []).length = w.weights.length) :
    weightedInputDotProductSum ws = some (specDotSum ws) := by
  unfold weightedInputDotProductSum
  rw [weightedInputDotProductSum_go ws 0 h, zero_add]

lemma dotProduct_eq_some (xs ys : List ℚ) (d : ℚ)
    (h : dotProduct xs ys = some d) :
    xs.length = ys.length ∧ d = (List.zipWith (· * ·) xs ys).sum := by
  unfold dotProduct at h
  split at h
  · exact ⟨by assumption, (Option.some.injEq _ _).mp h |>.symm⟩
  · exact absurd h (by simp)

lemma weightedInputDotProductSum_go_none (ws : List weightedInput)
    (acc : Option ℚ)
    (h : ∃ w ∈ ws, dotProduct (w.inputs.getD []) w.weights = none) :
    ws.foldl
      (fun acc w =>
        match acc, dotProduct (w.inputs.getD []) w.weights with
        | some s, some d => some (s + d)
        | _, _ => none)
      acc = none := by
  induction ws generalizing acc with
  | nil => exact absurd h (by simp)
  | cons w rest ih =>
    rw [List.foldl_cons]
    rcases h with ⟨w', hw', hdot⟩
    rcases List.mem_cons.mp hw' with rfl | hmem
    · have : (match acc, dotProduct (w'.inputs.getD []) w'.weights with
          | some s, some d => some (s + d)
          | _, _ => none) = none := by
        rw [hdot]; rcases acc with _ | s <;> rfl
      rw [this]
      exact weightedInputDotProductSum_none_absorb rest
    · exact ih _ ⟨w', hmem, hdot⟩

lemma weightedInputDotProductSum_go_some (ws : List weightedInput)
    (s₀ s : ℚ)
    (h : ws.foldl
      (fun acc w =>
        match acc, dotProduct (w.inputs.getD []) w.weights with
        | some s, some d => some (s + d)
        | _, _ => none)
      (some s₀) = some s) :
    (∀ w ∈ ws, (w.inputs.getD []).length = w.weights.length) ∧
      s = s₀ + specDotSum ws := by
  induction ws generalizing s₀ with
  | nil =>
    refine ⟨by simp, ?_⟩
    simp only [List.foldl_nil, Option.some.injEq] at h
    simp [specDotSum, ← h]
  | cons w rest ih =>
    rw [List.foldl_cons] at h
    rcases hdot : dotProduct (w.inputs.getD []) w.weights with _ | d
    · rw [hdot] at h
      rw [weightedInputDotProductSum_none_absorb rest] at h
      exact absurd h (by simp)
    · rw [hdot] at h
      obtain ⟨hlen, hsum⟩ := ih (s₀ + d) h
      obtain ⟨hl, hd⟩ := dotProduct_eq_some _ _ _ hdot
      refine ⟨?_, ?_⟩
      · intro w' hw'
        rcases List.mem_cons.mp hw' with rfl | hmem
        · exact hl
        · exact hlen w' hmem
      · rw [hsum, hd, specDotSum]
        simp [specDotSum]
        ring

/-! ### Helper lemmas about priming -/

lemma recordInput_mem_preserved (ws : List weightedInput) (m : DataMessage)
    (w : weightedInput) (hw : w ∈ ws) (hne : w.senderNodeUUID ≠ m.SenderId.UUID) :
    w ∈ recordInput ws m := by
  have : recordOne w m = w := by
    unfold recordOne
    rw [if_neg]
    simp [hne]
  rw [recordInput_eq_map]
  exact this ▸ List.mem_map_of_mem (recordOne · m) hw

lemma receiveBarrierSatisfied_false_of_mem (ws : List weightedInput)
    (w : weightedInput) (hw : w ∈ ws) (hnone : w.inputs = none) :
    receiveBarrierSatisfied ws = false := by
  unfold receiveBarrierSatisfied
  rw [List.all_eq_false]
  exact ⟨w, hw, by simp [hnone]⟩

lemma receiveBarrierSatisfied_recordInput_self (ws : List weightedInput)
    (m : DataMessage) (hall : ∀ w ∈ ws, w.senderNodeUUID = m.SenderId.UUID) :
    receiveBarrierSatisfied (recordInput ws m) = true := by
  unfold receiveBarrierSatisfied
  rw [List.all_eq_true]
  intro w' hw'
  rw [recordInput_eq_map] at hw'
  obtain ⟨w, hw, rfl⟩ := List.mem_map.mp hw'
  unfold recordOne
  rw [if_pos (by simp [hall w hw])]
  simp

lemma primeLoop_cons_self_quiet (nid : NodeId)
    (oracle : OutboundConnection → PrimeOutcome) (c : OutboundConnection)
    (rest : List OutboundConnection) (ws : List weightedInput)
    (evs : List PrimeEvent) (hself : c.NodeId.UUID = nid.UUID)
    (hbar : receiveBarrierSatisfied (recordInput ws ⟨nid, [0]⟩) = false) :
    primeLoop nid oracle (c :: rest) ws evs =
      primeLoop nid oracle rest (recordInput ws ⟨nid, [0]⟩)
        (evs ++ [PrimeEvent.selfReceive [0]]) := by
  simp [primeLoop, hself, hbar]

lemma primeLoop_cons_self_panic (nid : NodeId)
    (oracle : OutboundConnection → PrimeOutcome) (c : OutboundConnection)
    (rest : List OutboundConnection) (ws : List weightedInput)
    (evs : List PrimeEvent) (hself : c.NodeId.UUID = nid.UUID)
    (hbar : receiveBarrierSatisfied (recordInput ws ⟨nid, [0]⟩) = true) :
    primeLoop nid oracle (c :: rest) ws evs =
      ⟨evs ++ [PrimeEvent.selfReceive [0], PrimeEvent.panicBarrier],
        recordInput ws ⟨nid, [0]⟩, none⟩ := by
  simp [primeLoop, hself, hbar]

lemma primeLoop_cons_nonself (nid : NodeId)
    (oracle : OutboundConnection → PrimeOutcome) (c : OutboundConnection)
    (rest : List OutboundConnection) (ws : List weightedInput)
    (evs : List PrimeEvent) (hns : ¬c.NodeId.UUID = nid.UUID) :
    primeLoop nid oracle (c :: rest) ws evs =
      match oracle c with
      | PrimeOutcome.sent =>
        primeLoop nid oracle rest ws (evs ++ [PrimeEvent.send c.NodeId [0]])
      | PrimeOutcome.timedOut =>
        ⟨evs ++ [PrimeEvent.panicTimeout c.NodeId], ws, none⟩
      | PrimeOutcome.ackClosed =>
        ⟨evs ++ [PrimeEvent.ackShutdown], ws, some false⟩ := by
  simp [primeLoop, hns]

/-- With every priming send completing, the priming loop walks the whole
connection list, emitting one `[0]`-delivery per connection — through the
channel for a non-self target, through the direct receive path for a
self-loop — provided some pending entry of a different sender stays empty
(which keeps the self-loop barrier assertion quiet). -/
lemma primeLoop_allSent (nid : NodeId) (conns : List OutboundConnection)
    (ws : List weightedInput) (evs : List PrimeEvent)
    (hinv : ∃ w ∈ ws, w.senderNodeUUID ≠ nid.UUID ∧ w.inputs = none) :
    (primeLoop nid allSent conns ws evs).events =
      evs ++ conns.map (fun c =>
        if c.NodeId.UUID == nid.UUID then PrimeEvent.selfReceive [0]
        else PrimeEvent.send c.NodeId [0]) ∧
    (primeLoop nid allSent conns ws evs).closedReturn = some false := by
  induction conns generalizing ws evs with
  | nil => simp [primeLoop]
  | cons c rest ih =>
    obtain ⟨w, hw, hne, hnone⟩ := hinv
    by_cases hself : c.NodeId.UUID = nid.UUID
    · have hmem : w ∈ recordInput ws ⟨nid, [0]⟩ :=
        recordInput_mem_preserved ws _ w hw hne
      have hbar : receiveBarrierSatisfied (recordInput ws ⟨nid, [0]⟩) = false :=
        receiveBarrierSatisfied_false_of_mem _ w hmem hnone
      rw [primeLoop_cons_self_quiet nid allSent c rest ws evs hself hbar]
      obtain ⟨h1, h2⟩ := ih (recordInput ws ⟨nid, [0]⟩)
        (evs ++ [PrimeEvent.selfReceive [0]]) ⟨w, hmem, hne, hnone⟩
      rw [h1, h2]
      simp [hself]
    · rw [primeLoop_cons_nonself nid allSent c rest ws evs hself]
      simp only [allSent]
      obtain ⟨h1, h2⟩ := ih ws (evs ++ [PrimeEvent.send c.NodeId [0]])
        ⟨w, hw, hne, hnone⟩
      rw [h1, h2]
      simp [hself]

/-- The self-loop barrier assertion can never fire while some pending entry
of a different sender is empty, whatever the environment does. -/
lemma primeLoop_no_panicBarrier (nid : NodeId)
    (oracle : OutboundConnection → PrimeOutcome)
    (conns : List OutboundConnection) (ws : List weightedInput)
    (evs : List PrimeEvent)
    (hinv : ∃ w ∈ ws, w.senderNodeUUID ≠ nid.UUID ∧ w.inputs = none)
    (hevs : PrimeEvent.panicBarrier ∉ evs) :
    PrimeEvent.panicBarrier ∉ (primeLoop nid oracle conns ws evs).events := by
  induction conns generalizing ws evs with
  | nil => simpa [primeLoop] using hevs
  | cons c rest ih =>
    obtain ⟨w, hw, hne, hnone⟩ := hinv
    by_cases hself : c.NodeId.UUID = nid.UUID
    · have hmem : w ∈ recordInput ws ⟨nid, [0]⟩ :=
        recordInput_mem_preserved ws _ w hw hne
      have hbar : receiveBarrierSatisfied (recordInput ws ⟨nid, [0]⟩) = false :=
        receiveBarrierSatisfied_false_of_mem _ w hmem hnone
      rw [primeLoop_cons_self_quiet nid oracle c rest ws evs hself hbar]
      exact ih (recordInput ws ⟨nid, [0]⟩) (evs ++ [PrimeEvent.selfReceive [0]])
        ⟨w, hmem, hne, hnone⟩ (by simp [hevs])
    · rw [primeLoop_cons_nonself nid oracle c rest ws evs hself]
      rcases horacle : oracle c with _ | _ | _
      · exact ih ws (evs ++ [PrimeEvent.send c.NodeId [0]])
          ⟨w, hw, hne, hnone⟩ (by simp [hevs])
      · simp [hevs]
      · simp [hevs]

/-- If every pending entry belongs to the neuron's own UUID and some
recurrent connection is a self-loop, the all-sends-complete priming run hits
the barrier assertion. -/
lemma primeLoop_panicBarrier (nid : NodeId) (conns : List OutboundConnection)
    (ws : List weightedInput) (evs : List PrimeEvent)
    (hall : ∀ w ∈ ws, w.senderNodeUUID = nid.UUID)
    (hself : ∃ c ∈ conns, c.NodeId.UUID = nid.UUID) :
    PrimeEvent.panicBarrier ∈ (primeLoop nid allSent conns ws evs).events := by
  induction conns generalizing ws evs with
  | nil => exact absurd hself (by simp)
  | cons c rest ih =>
    by_cases hc : c.NodeId.UUID = nid.UUID
    · have hbar : receiveBarrierSatisfied (recordInput ws ⟨nid, [0]⟩) = true :=
        receiveBarrierSatisfied_recordInput_self ws _ hall
      rw [primeLoop_cons_self_panic nid allSent c rest ws evs hc hbar]
      simp
    · obtain ⟨c', hc', hcuuid⟩ := hself
      rcases List.mem_cons.mp hc' with rfl | hmem
      · exact absurd hcuuid hc
      · rw [primeLoop_cons_nonself nid allSent c rest ws evs hc]
        exact ih ws (evs ++ [PrimeEvent.send c.NodeId [0]]) hall ⟨c', hmem, hcuuid⟩

/-! ### Helper lemmas for arrival-order independence -/

lemma recordOne_comm (w : weightedInput) (m1 m2 : DataMessage)
    (h : m1.SenderId.UUID ≠ m2.SenderId.UUID) :
    recordOne (recordOne w m1) m2 = recordOne (recordOne w m2) m1 := by
  unfold recordOne
  by_cases h1 : w.senderNodeUUID = m1.SenderId.UUID <;>
    by_cases h2 : w.senderNodeUUID = m2.SenderId.UUID
  · exact absurd (h1 ▸ h2) h
  · simp [h1, h2, h, h.symm]
  · simp [h1, h2, h, h.symm]
  · simp [h1, h2]

lemma recordInput_comm (ws : List weightedInput) (m1 m2 : DataMessage)
    (h : m1.SenderId.UUID ≠ m2.SenderId.UUID) :
    recordInput (recordInput ws m1) m2 = recordInput (recordInput ws m2) m1 := by
  rw [recordInput_eq_map, recordInput_eq_map, recordInput_eq_map,
    recordInput_eq_map, List.map_map, List.map_map]
  exact List.map_congr_left (fun w _ => recordOne_comm w m1 m2 h)

/-! ### Claim theorems -/

/-- **C1**: for a neuron whose receive barrier is satisfied (every pending
entry holds a payload of the matching dimension), firing produces exactly
`activation (bias + Σ over inbound edges of dot(payload, weights))`; in
particular the neuron with bias 20, identity activation and one inbound edge
with weights `[1,1,1,1,1]` receiving payload `[20,20,20,20,20]` outputs
exactly 120. -/
theorem C1_fire_formula :
    (∀ (neuron : Neuron) (a : EncodableActivation) (ws : List weightedInput),
        neuron.ActivationFunction = some a →
        Neurgo.receiveBarrierSatisfied ws = true →
        (∀ w ∈ ws, (w.inputs.getD []).length = w.weights.length) →
        neuron.computeScalarOutput ws =
          some (a.ActivationFunction (neuron.Bias + specDotSum ws)))
  ∧ c1Neuron.computeScalarOutput
      [⟨"injector", [1, 1, 1, 1, 1], some [20, 20, 20, 20, 20]⟩] =
      some 120 := by
  have hgen : ∀ (neuron : Neuron) (a : EncodableActivation)
      (ws : List weightedInput),
      neuron.ActivationFunction = some a →
      Neurgo.receiveBarrierSatisfied ws = true →
      (∀ w ∈ ws, (w.inputs.getD []).length = w.weights.length) →
      neuron.computeScalarOutput ws =
        some (a.ActivationFunction (neuron.Bias + specDotSum ws)) := by
    intro neuron a ws ha _hbar h
    unfold Neuron.computeScalarOutput
    rw [ha, weightedInputDotProductSum_eq_some ws h]
    simp only [Option.map_some', Option.some.injEq]
    rw [add_comm (specDotSum ws) neuron.Bias]
  refine ⟨hgen, ?_⟩
  rw [hgen c1Neuron identityActivation _ rfl (by decide) (by decide)]
  show some ((20 : ℚ) + specDotSum _) = some 120
  simp [specDotSum]
  norm_num

/-- **C1 witness**: the general formula of `C1_fire_formula` applied at the
concrete example neuron and payload, every hypothesis discharged there. -/
theorem C1_fire_formula_witness :
    c1Neuron.computeScalarOutput
        [⟨"injector", [1, 1, 1, 1, 1], some [20, 20, 20, 20, 20]⟩] =
      some (identityActivation.ActivationFunction
        (c1Neuron.Bias +
          specDotSum [⟨"injector", [1, 1, 1, 1, 1], some [20, 20, 20, 20, 20]⟩])) :=
  C1_fire_formula.1 c1Neuron identityActivation
    [⟨"injector", [1, 1, 1, 1, 1], some [20, 20, 20, 20, 20]⟩]
    rfl (by decide) (by decide)

/-- **C2 counterexample**: the claim ties firing to the *current* inbound
connection list, but the barrier (neuron.go:66, 431-433) is evaluated on the
cached `weightedInputs`, rebuilt only at `Run` start and after a firing
(neuron.go:49, 201). In this reachable state the inbound list has shrunk to
`[S2]` and every sender in that current list has a received entry after S2
delivers, yet the worker's barrier is still unsatisfied — it does not fire,
where the claim requires it to. -/
theorem C2_counterexample :
    (c2StaleNeuron.Inbound.getD []).all
        (fun c => [c3Msg2].any (fun m => c.NodeId.UUID == m.SenderId.UUID)) =
      true ∧
    (c2StaleNeuron.receiveDataMessage c3Msg2).receiveBarrierSatisfied =
      false :=
  ⟨rfl, rfl⟩

/-- **C2 (amended)**: the worker's barrier — re-evaluated after each arrival
(neuron.go:63-68) — is satisfied exactly when every sender in the inbound
connection list *from which the pending state was last rebuilt* (`Run`
start, or the preceding firing) has a received entry: after any batch of
arrivals into freshly rebuilt pending state, the neuron fires iff every
sender of that list delivered, and never fires while the entry of one of
its senders is missing. This coincides with the current list whenever the
list is unchanged since the rebuild. -/
theorem C2_fires_iff_all_senders_delivered
    (inbound : List InboundConnection) (msgs : List DataMessage) :
    firesAfter inbound msgs =
      inbound.all
        (fun c => msgs.any (fun m => c.NodeId.UUID == m.SenderId.UUID)) :=
  receiveBarrierSatisfied_foldl inbound msgs

/-- **C8**: a dimension mismatch between an edge's delivered payload and its
weight vector makes the dot-product step fail fatally (`none` models the
panic at neuron.go:394-398), and a successful summation certifies that every
edge's dimensions matched and that the full, untruncated dot products were
summed. -/
theorem C8_dimension_mismatch_fatal :
    (∀ (ws : List weightedInput) (w : weightedInput) (p : List ℚ),
        w ∈ ws → w.inputs = some p → p.length ≠ w.weights.length →
        weightedInputDotProductSum ws = none)
  ∧ (∀ (ws : List weightedInput) (s : ℚ),
        weightedInputDotProductSum ws = some s →
        (∀ w ∈ ws, (w.inputs.getD []).length = w.weights.length) ∧
          s = specDotSum ws) := by
  constructor
  · intro ws w p hmem hp hlen
    unfold weightedInputDotProductSum
    refine weightedInputDotProductSum_go_none ws _ ⟨w, hmem, ?_⟩
    unfold dotProduct
    rw [hp]
    simp only [Option.getD_some]
    exact if_neg hlen
  · intro ws s h
    unfold weightedInputDotProductSum at h
    obtain ⟨hlen, hsum⟩ := weightedInputDotProductSum_go_some ws 0 s h
    exact ⟨hlen, by rw [hsum, zero_add]⟩

/-- **C8 witness**: a single edge with weight vector `[1]` receiving the
two-dimensional payload `[1, 2]` makes the summation fail (`none`). -/
theorem C8_dimension_mismatch_fatal_witness :
    weightedInputDotProductSum [⟨"x", [1], some [1, 2]⟩] = none :=
  C8_dimension_mismatch_fatal.1 [⟨"x", [1], some [1, 2]⟩]
    ⟨"x", [1], some [1, 2]⟩ [1, 2] (by simp) rfl (by decide)

/-- **C9 counterexample**: the claim says the copy's Outbound connection
list equals the original's; but the JSON round trip cannot carry a channel,
so the copy's outbound connection comes back with a nil `DataChan` while the
original's is live — the lists differ. `initOutboundConnections`
(neuron.go:414-423) exists to repair exactly this after decoding. -/
theorem C9_counterexample :
    (c9Neuron.Outbound.getD []).map (fun c => c.DataChan) = [true] ∧
    (c9Neuron.Copy.Outbound.getD []).map (fun c => c.DataChan) = [false] ∧
    c9Neuron.Copy.Outbound ≠ c9Neuron.Outbound := by
  refine ⟨rfl, rfl, ?_⟩
  intro h
  have h1 : (c9Neuron.Copy.Outbound.getD []).map (fun c => c.DataChan) =
      [false] := rfl
  have h2 : (c9Neuron.Outbound.getD []).map (fun c => c.DataChan) =
      [true] := rfl
  rw [h, h2] at h1
  exact absurd h1 (by decide)

/-- **C9 (amended)**: `Copy` returns a fresh neuron whose `NodeId`, `Bias`,
`Inbound` and `ActivationFunction` equal the original's, and whose outbound
list preserves each connection's target identity but not its channel — every
decoded outbound connection's `DataChan` is nil — while the copy's control
channel, data channel, wait group, Cortex reference and transient
pending-input state are all unset: no runtime state survives the round
trip. -/
theorem C9_copy_preserves_serialised_fields_only (neuron : Neuron) :
    neuron.Copy.NodeId = neuron.NodeId ∧
    neuron.Copy.Bias = neuron.Bias ∧
    neuron.Copy.Inbound = neuron.Inbound ∧
    neuron.Copy.Outbound =
      neuron.Outbound.map (fun l => l.map (fun c => ⟨c.NodeId, false⟩)) ∧
    neuron.Copy.ActivationFunction = neuron.ActivationFunction ∧
    neuron.Copy.Closing = false ∧
    neuron.Copy.DataChan = false ∧
    neuron.Copy.wg = false ∧
    neuron.Copy.Cortex = false ∧
    neuron.Copy.weightedInputs = [] := by
  refine ⟨rfl, rfl, rfl, ?_, rfl, rfl, rfl, rfl, rfl, rfl⟩
  show (neuron.Outbound.map
      (fun l => l.map OutboundConnection.MarshalJSON)).map
      (fun l => l.map unmarshalOutboundConnection) = _
  cases neuron.Outbound with
  | none => rfl
  | some l =>
    show some ((l.map OutboundConnection.MarshalJSON).map
      unmarshalOutboundConnection) = _
    rw [List.map_map]
    rfl

/-- **C7 counterexample**: the claim says an absent (nil) connection list at
`Run` time aborts the node; but `checkRunnable` (neuron.go:324-356) never
checks `Outbound` for nil (`validateOutbound` merely iterates the nil slice
zero times), so this fully-configured neuron with a nil outbound list does
not abort. -/
theorem C7_counterexample :
    c7Neuron.Outbound = none ∧ c7Neuron.checkRunnablePanics = false :=
  ⟨rfl, rfl⟩

/-- **C7 (amended)**: `Run`'s validation aborts iff `NodeId`, `Inbound`,
`Closing`, `DataChan` or `ActivationFunction` is nil, or some outbound
connection has a nil data channel; a nil `Outbound` list itself never
aborts. -/
theorem C7_checkRunnable_characterisation (neuron : Neuron) :
    neuron.checkRunnablePanics = true ↔
      (neuron.NodeId = none ∨ neuron.Inbound = none ∨
        neuron.Closing = false ∨ neuron.DataChan = false ∨
        neuron.ActivationFunction = none ∨
        ∃ c ∈ neuron.Outbound.getD [], c.DataChan = false) := by
  unfold Neuron.checkRunnablePanics Neuron.validateOutboundErr
  simp [Option.isNone_iff_eq_none, List.any_eq_true]
  tauto

/-- **C3 counterexample**: the claim requires that after `Disconnect(S1)`
returns, the blocked worker's very next barrier evaluation uses the shrunken
inbound set, so S2's single delivery fires the node. But the worker's
barrier (neuron.go:66, 431-433) evaluates the *cached* `weightedInputs`,
built from the pre-disconnect list `[S1, S2]` (neuron.go:49, 201); the
spec-modelled `Disconnect` only shrinks the `Inbound` list. After S2's
delivery the evaluation is `false` — the worker stays blocked, contradicting
the claim's required `true`. -/
theorem C3_counterexample :
    disconnectInbound [c3S1Conn, c3S2Conn] "s1" = [c3S2Conn] ∧
    receiveBarrierSatisfied
        (recordInput (createEmptyWeightedInputs [c3S1Conn, c3S2Conn])
          c3Msg2) = false :=
  ⟨rfl, rfl⟩

/-- **C3 (amended)**: barrier evaluation keeps using the pending-input
entries built from the inbound list at the last reset; `Disconnect` alone
never unblocks a waiting worker: while a pre-disconnect sender (here `u`)
has not delivered, the barrier stays `false` no matter which messages
arrive. Only once the pending state is rebuilt from the shrunken list does
the ordinary barrier rule over the remaining senders govern firing. -/
theorem C3_disconnect_does_not_shrink_live_barrier
    (inbound : List InboundConnection) (msgs : List DataMessage)
    (u : String) (c : InboundConnection) (hc : c ∈ inbound)
    (hu : c.NodeId.UUID = u) (hmsgs : ∀ m ∈ msgs, m.SenderId.UUID ≠ u) :
    receiveBarrierSatisfied
        (msgs.foldl recordInput (createEmptyWeightedInputs inbound)) = false ∧
    firesAfter (disconnectInbound inbound u) msgs =
      (disconnectInbound inbound u).all
        (fun c' => msgs.any (fun m => c'.NodeId.UUID == m.SenderId.UUID)) := by
  refine ⟨?_, receiveBarrierSatisfied_foldl _ _⟩
  rw [receiveBarrierSatisfied_foldl, List.all_eq_false]
  refine ⟨c, hc, ?_⟩
  intro hany
  rw [List.any_eq_true] at hany
  obtain ⟨m, hm, hbeq⟩ := hany
  exact hmsgs m hm ((beq_iff_eq.mp hbeq).symm.trans hu)

/-- **C3 witness**: the amended statement at the concrete scenario —
pending senders {S1, S2}, S1 disconnected, only S2 delivers: the stale
barrier stays `false`; after a rebuild from the shrunken list the barrier
rule over `[S2]` applies. -/
theorem C3_disconnect_witness :
    receiveBarrierSatisfied
        ([c3Msg2].foldl recordInput
          (createEmptyWeightedInputs [c3S1Conn, c3S2Conn])) = false ∧
    firesAfter (disconnectInbound [c3S1Conn, c3S2Conn] "s1") [c3Msg2] =
      (disconnectInbound [c3S1Conn, c3S2Conn] "s1").all
        (fun c' => [c3Msg2].any (fun m => c'.NodeId.UUID == m.SenderId.UUID)) :=
  C3_disconnect_does_not_shrink_live_barrier [c3S1Conn, c3S2Conn] [c3Msg2]
    "s1" c3S1Conn (List.Mem.head _) rfl (by decide)

/-- **C4**: with every priming send completing and at least one non-self
inbound sender (so the self-loop assertion stays quiet), the priming phase —
which `Run` (neuron.go:49-55) executes before entering its receive loop —
delivers exactly one `[0]` message per recurrent outbound connection (target
layer ≤ own layer), in list order: through the channel for a non-self
target, through the direct receive path for a self-loop; every channel send
of the phase goes to a recurrent non-self target with payload `[0]`, so
non-recurrent edges receive nothing. -/
theorem C4_priming_sends_zero_on_recurrent_only (neuron : Neuron)
    (nid : NodeId) (hnid : neuron.NodeId = some nid)
    (hinb : ∃ c ∈ neuron.Inbound.getD [], c.NodeId.UUID ≠ nid.UUID) :
    (neuron.primeAllRecurrentOutbound nid allSent).events =
      ((neuron.Outbound.getD []).filter
          (fun c => decide (c.NodeId.LayerIndex ≤ nid.LayerIndex))).map
        (fun c => if c.NodeId.UUID == nid.UUID then PrimeEvent.selfReceive [0]
          else PrimeEvent.send c.NodeId [0]) ∧
    (∀ t p, PrimeEvent.send t p ∈
        (neuron.primeAllRecurrentOutbound nid allSent).events →
      t.LayerIndex ≤ nid.LayerIndex ∧ t.UUID ≠ nid.UUID ∧ p = [0]) ∧
    (neuron.primeAllRecurrentOutbound nid allSent).closedReturn =
      some false := by
  obtain ⟨ci, hci, hcine⟩ := hinb
  have hinv : ∃ w ∈ createEmptyWeightedInputs (neuron.Inbound.getD []),
      w.senderNodeUUID ≠ nid.UUID ∧ w.inputs = none :=
    ⟨⟨ci.NodeId.UUID, ci.Weights, none⟩,
      List.mem_map_of_mem _ hci, hcine, rfl⟩
  have hfilter : neuron.RecurrentOutboundConnections =
      (neuron.Outbound.getD []).filter
        (fun c => decide (c.NodeId.LayerIndex ≤ nid.LayerIndex)) := by
    unfold Neuron.RecurrentOutboundConnections
    congr 1
    funext c
    unfold Neuron.IsConnectionRecurrent
    rw [hnid]
  obtain ⟨h1, h2⟩ := primeLoop_allSent nid
    ((neuron.Outbound.getD []).filter
      (fun c => decide (c.NodeId.LayerIndex ≤ nid.LayerIndex)))
    (createEmptyWeightedInputs (neuron.Inbound.getD [])) [] hinv
  have hev : (neuron.primeAllRecurrentOutbound nid allSent).events =
      ((neuron.Outbound.getD []).filter
          (fun c => decide (c.NodeId.LayerIndex ≤ nid.LayerIndex))).map
        (fun c => if c.NodeId.UUID == nid.UUID then PrimeEvent.selfReceive [0]
          else PrimeEvent.send c.NodeId [0]) := by
    unfold Neuron.primeAllRecurrentOutbound
    rw [hfilter, h1]
    simp
  refine ⟨hev, ?_, ?_⟩
  · intro t p hmem
    rw [hev] at hmem
    obtain ⟨c, hcmem, heq⟩ := List.mem_map.mp hmem
    obtain ⟨-, hcrec⟩ := List.mem_filter.mp hcmem
    by_cases hcself : c.NodeId.UUID = nid.UUID
    · rw [if_pos (by simp [hcself])] at heq
      exact absurd heq (by simp)
    · rw [if_neg (by simp [hcself])] at heq
      injection heq with h1 h2
      subst h1
      subst h2
      exact ⟨of_decide_eq_true hcrec, hcself, rfl⟩
  · unfold Neuron.primeAllRecurrentOutbound
    rw [hfilter]
    exact h2

/-- **C4 witness**: the priming theorem at a neuron with one recurrent
non-self edge, one self-loop and one non-recurrent edge. -/
theorem C4_priming_witness :
    (∃ c ∈ c4Neuron.Inbound.getD [], c.NodeId.UUID ≠ c4Nid.UUID) ∧
    (c4Neuron.primeAllRecurrentOutbound c4Nid allSent).events =
      ((c4Neuron.Outbound.getD []).filter
          (fun c => decide (c.NodeId.LayerIndex ≤ c4Nid.LayerIndex))).map
        (fun c => if c.NodeId.UUID == c4Nid.UUID then PrimeEvent.selfReceive [0]
          else PrimeEvent.send c.NodeId [0]) ∧
    (c4Neuron.primeAllRecurrentOutbound c4Nid allSent).closedReturn =
      some false :=
  ⟨⟨⟨⟨"inj", "injector", 0⟩, [1]⟩, List.Mem.head _, by decide⟩,
    (C4_priming_sends_zero_on_recurrent_only c4Neuron c4Nid rfl
      ⟨⟨⟨"inj", "injector", 0⟩, [1]⟩, List.Mem.head _, by decide⟩).1,
    (C4_priming_sends_zero_on_recurrent_only c4Neuron c4Nid rfl
      ⟨⟨⟨"inj", "injector", 0⟩, [1]⟩, List.Mem.head _, by decide⟩).2.2⟩

/-- **C5**: the claim says a worker that acknowledges a shutdown request —
including one arriving while priming — terminates without processing further
messages. The code violates this: at neuron.go:316 the loop writes
`closed := neuron.primeRecurrentOutbound(...)`, a new local that shadows the
named return value, so after the priming send's `select` acknowledges the
shutdown (`responseChan <- true`, neuron.go:294-296) the function still
returns `false`, and `Run` (neuron.go:51-55) — seeing `closed == false` —
enters its receive loop and keeps processing messages. -/
theorem C5_ack_during_priming_not_propagated :
    c5Neuron.RecurrentOutboundConnections = [c5AConn] ∧
    (c5Neuron.primeAllRecurrentOutbound c5Nid ackOracle).events =
      [PrimeEvent.ackShutdown] ∧
    (c5Neuron.primeAllRecurrentOutbound c5Nid ackOracle).closedReturn =
      some false ∧
    c5Neuron.runEntersReceiveLoop c5Nid ackOracle = true := by
  have hp : c5Neuron.IsConnectionRecurrent c5AConn = true := by
    unfold Neuron.IsConnectionRecurrent c5Neuron
    simp [c5AConn, c5Nid]
  have hrec : c5Neuron.RecurrentOutboundConnections = [c5AConn] := by
    unfold Neuron.RecurrentOutboundConnections
    rw [show c5Neuron.Outbound.getD [] = [c5AConn] from rfl]
    rw [List.filter_cons, hp]
    rfl
  have hres : c5Neuron.primeAllRecurrentOutbound c5Nid ackOracle =
      ⟨[PrimeEvent.ackShutdown],
        createEmptyWeightedInputs (c5Neuron.Inbound.getD []), some false⟩ := by
    unfold Neuron.primeAllRecurrentOutbound
    rw [hrec, primeLoop_cons_nonself c5Nid ackOracle c5AConn [] _ []
      (by decide)]
    rfl
  refine ⟨hrec, ?_, ?_, ?_⟩
  · rw [hres]
  · rw [hres]
  · unfold Neuron.runEntersReceiveLoop
    rw [hres]
    rfl

/-- **C6**: one firing's output is a pure function of the delivered
per-sender payloads, weights, bias and activation only: folding the same
per-sender messages (pairwise-distinct senders) into freshly rebuilt pending
state in any two arrival orders yields identical fired outputs. -/
theorem C6_output_independent_of_arrival_order (neuron : Neuron)
    (inbound : List InboundConnection) (msgs1 msgs2 : List DataMessage)
    (hperm : msgs1.Perm msgs2)
    (hnodup : (msgs1.map (fun m => m.SenderId.UUID)).Nodup) :
    neuron.computeScalarOutput
        (msgs1.foldl recordInput (createEmptyWeightedInputs inbound)) =
      neuron.computeScalarOutput
        (msgs2.foldl recordInput (createEmptyWeightedInputs inbound)) := by
  have hws : msgs1.foldl recordInput (createEmptyWeightedInputs inbound) =
      msgs2.foldl recordInput (createEmptyWeightedInputs inbound) := by
    refine List.Perm.foldl_eq' hperm ?_ _
    intro x hx y hy z
    by_cases hxy : x.SenderId.UUID = y.SenderId.UUID
    · have hxyeq : x = y := List.inj_on_of_nodup_map hnodup hx hy hxy
      rw [hxyeq]
    · exact recordInput_comm z x y hxy
  rw [hws]

/-- **C6 witness**: the two arrival orders of x's and y's messages give the
same fired output. -/
theorem C6_order_witness :
    ([c6MsgX, c6MsgY].Perm [c6MsgY, c6MsgX]) ∧
    (([c6MsgX, c6MsgY].map (fun m => m.SenderId.UUID)).Nodup) ∧
    c1Neuron.computeScalarOutput
        ([c6MsgX, c6MsgY].foldl recordInput
          (createEmptyWeightedInputs c6Inbound)) =
      c1Neuron.computeScalarOutput
        ([c6MsgY, c6MsgX].foldl recordInput
          (createEmptyWeightedInputs c6Inbound)) :=
  ⟨List.Perm.swap c6MsgY c6MsgX [], by decide,
    C6_output_independent_of_arrival_order c1Neuron c6Inbound
      [c6MsgX, c6MsgY] [c6MsgY, c6MsgX]
      (List.Perm.swap c6MsgY c6MsgX []) (by decide)⟩

/-- **C10**: priming a self-loop asserts the barrier is still unsatisfied
after the self-delivered zero message (neuron.go:277-280). (a) If some
inbound connection besides the self-loop exists, its pending entry stays
empty throughout priming, so the assertion can never fire, whatever the
environment does. (b) If every inbound connection is the neuron's own
self-loop, the first self-delivery fills the whole pending state and the
assertion panics. -/
theorem C10_selfloop_priming_assertion (neuron : Neuron) (nid : NodeId)
    (hnid : neuron.NodeId = some nid) :
    ((∃ c ∈ neuron.Inbound.getD [], c.NodeId.UUID ≠ nid.UUID) →
      ∀ oracle, PrimeEvent.panicBarrier ∉
        (neuron.primeAllRecurrentOutbound nid oracle).events) ∧
    ((∀ c ∈ neuron.Inbound.getD [], c.NodeId.UUID = nid.UUID) →
      (∃ c ∈ neuron.Outbound.getD [], c.NodeId = nid) →
      PrimeEvent.panicBarrier ∈
        (neuron.primeAllRecurrentOutbound nid allSent).events) := by
  constructor
  · rintro ⟨c, hc, hcne⟩ oracle
    unfold Neuron.primeAllRecurrentOutbound
    refine primeLoop_no_panicBarrier nid oracle _ _ [] ?_ (by simp)
    exact ⟨⟨c.NodeId.UUID, c.Weights, none⟩,
      List.mem_map_of_mem _ hc, hcne, rfl⟩
  · rintro hall ⟨c, hc, hceq⟩
    unfold Neuron.primeAllRecurrentOutbound
    refine primeLoop_panicBarrier nid _ _ [] ?_ ⟨c, ?_, by rw [hceq]⟩
    · intro w hw
      unfold createEmptyWeightedInputs at hw
      obtain ⟨ci, hci, rfl⟩ := List.mem_map.mp hw
      exact hall ci hci
    · refine List.mem_filter.mpr ⟨hc, ?_⟩
      unfold Neuron.IsConnectionRecurrent
      rw [hnid, hceq]
      simp

/-- **C10 witness**: (a) the neuron with an extra non-self inbound sender
never hits the assertion; (b) the neuron whose only inbound connection is
its own self-loop panics during priming. -/
theorem C10_selfloop_witness :
    ((∃ c ∈ c10OkNeuron.Inbound.getD [], c.NodeId.UUID ≠ c10Nid.UUID) ∧
      PrimeEvent.panicBarrier ∉
        (c10OkNeuron.primeAllRecurrentOutbound c10Nid allSent).events) ∧
    ((∀ c ∈ c10OnlySelfNeuron.Inbound.getD [], c.NodeId.UUID = c10Nid.UUID) ∧
      PrimeEvent.panicBarrier ∈
        (c10OnlySelfNeuron.primeAllRecurrentOutbound c10Nid allSent).events) :=
  ⟨⟨⟨⟨⟨"inj", "injector", 0⟩, [1]⟩, List.Mem.head _, by decide⟩,
      (C10_selfloop_priming_assertion c10OkNeuron c10Nid rfl).1
        ⟨⟨⟨"inj", "injector", 0⟩, [1]⟩, List.Mem.head _, by decide⟩ allSent⟩,
    ⟨by decide,
      (C10_selfloop_priming_assertion c10OnlySelfNeuron c10Nid rfl).2
        (by decide) ⟨c10SelfOut, List.Mem.head _, rfl⟩⟩⟩

end Neurgo
